import Mathlib

/-!
# Verification of the `beanbag_docutils` docstring field parser / type rewriter

This file gives a shallow embedding, in Lean, of the docstring-parsing core of
`beanbag_docutils/sphinx/ext/autodoc_utils.py` (class `BeanbagDocstring`):

* the two regular expressions `partial_typed_arg_start_re` and
  `partial_typed_arg_end_re` and Python's `re.match` semantics for them,
* the line-buffer operations `peek_lines`, `consume_lines` and `queue_line`
  (the Sphinx >= 5.1 deque branch, which the class selects on current Sphinx),
* the multi-line field reconstruction step of `_consume_field`,
* `make_type_reference` (with the `_convert_type_spec` fallback defined in the
  same module),
* `_format_admonition_with_params` together with models of the base-class
  helpers (`_strip_empty`, `_dedent`, `_indent`) it calls.

Strings are modelled by Lean `String` (a structure over `List Char`), so all
definitions are executable and all concrete claims can be settled by `rfl` or
`decide`.
-/

namespace BeanbagDocutils

/-! ## Python character / string primitives -/

/-- Python whitespace (the ASCII whitespace characters recognized by
`str.strip`, `str.isspace` and the regex class `\s` on the inputs at hand). -/
def pyWs (c : Char) : Bool :=
  c = ' ' || c = '\t' || c = '\n' || c = '\r' ||
    c = Char.ofNat 11 || c = Char.ofNat 12

/-- `str.strip()` on a list of characters: drop whitespace on both ends. -/
def pyStrip (cs : List Char) : List Char :=
  ((cs.dropWhile pyWs).reverse.dropWhile pyWs).reverse

/-- `str.strip()` on a `String`. -/
def pyStripStr (s : String) : String :=
  String.mk (pyStrip s.data)

/-- Python `str.endswith(suffix)`. -/
def pyEndsWith (suffix : List Char) (s : String) : Bool :=
  suffix.isSuffixOf s.data

/-- Python `sep.join(pieces)` over character lists. -/
def pyJoin (sep : List Char) : List (List Char) → List Char
  | [] => []
  | [p] => p
  | p :: ps => p ++ sep ++ pyJoin sep ps

/-- Python `sep.join(pieces)` over strings. -/
def pyJoinStr (sep : String) : List String → String
  | [] => ""
  | [p] => p
  | p :: ps => p ++ sep ++ pyJoinStr sep ps

/-- Python `s.split(sep)` for a one-character separator: split at every
occurrence of the separator, keeping empty pieces (so the result always has
at least one piece, and `"".split(sep) == ['']`). -/
def pySplitCharAux (sep : Char) : List Char → List Char → List (List Char)
  | [], acc => [acc.reverse]
  | c :: rest, acc =>
    if c = sep then
      acc.reverse :: pySplitCharAux sep rest []
    else
      pySplitCharAux sep rest (c :: acc)

/-- Python `s.split(sep)` for a one-character separator, over `String`. -/
def pySplitStr (sep : Char) (s : String) : List String :=
  (pySplitCharAux sep s.data []).map String.mk

/-! ## A matcher for the two regular expressions of `BeanbagDocstring`

The two patterns,

* `partial_typed_arg_start_re = r'\s*(.+?)\s*\(\s*(.*[^\s]+)\s*[^:)]*$'`
* `partial_typed_arg_end_re   = r'\s*(.+?)\):$'`

use only literals, single-character classes and their `*` / `+` repetitions,
plus the end anchor `$`.  `re.match` anchors the match at the start of the
string and allows it to stop anywhere (so trailing input after the pattern is
permitted unless `$` ends the pattern).  Capture groups and greediness do not
affect *whether* a match exists, which is all the source uses (`if m:`), so
the embedding decides existence of a match by exhaustive backtracking. -/

/-- One element of a regular expression: a literal character, a character
class, a repeated character class (`*` / `+`), or the `$` anchor. -/
inductive ReElem where
  | lit (c : Char)
  | one (p : Char → Bool)
  | many (p : Char → Bool)
  | many1 (p : Char → Bool)
  | eol

/-- Fuelled backtracking matcher: does the element list match a prefix of
`cs`?  Each recursive call shrinks `ps.length + cs.length`, so fuel
`ps.length + cs.length + 1` is always enough (see `reMatch`). -/
def reMatchF : Nat → List ReElem → List Char → Bool
  | 0, _, _ => false
  | fuel + 1, ps, cs =>
    match ps with
    | [] => true
    | .lit c :: ps' =>
      match cs with
      | c' :: cs' => c = c' && reMatchF fuel ps' cs'
      | [] => false
    | .one p :: ps' =>
      match cs with
      | c :: cs' => p c && reMatchF fuel ps' cs'
      | [] => false
    | .many p :: ps' =>
      reMatchF fuel ps' cs ||
        (match cs with
         | c :: cs' => p c && reMatchF fuel (.many p :: ps') cs'
         | [] => false)
    | .many1 p :: ps' =>
      match cs with
      | c :: cs' => p c && reMatchF fuel (.many p :: ps') cs'
      | [] => false
    | .eol :: ps' =>
      (cs.isEmpty || cs = ['\n']) && reMatchF fuel ps' cs

/-- `re.match(pattern, s)` truthiness: match anchored at the start. -/
def reMatch (ps : List ReElem) (cs : List Char) : Bool :=
  reMatchF (ps.length + cs.length + 1) ps cs

/-- The class `.` (any character except a newline). -/
def reDot (c : Char) : Bool := c ≠ '\n'

/-- The class `[^\s]` (any non-whitespace character). -/
def reNonWs (c : Char) : Bool := !pyWs c

/-- The class `[^:)]`. -/
def reNonColonParen (c : Char) : Bool := c ≠ ':' && c ≠ ')'

/-- `BeanbagDocstring.partial_typed_arg_start_re`:
`\s*(.+?)\s*\(\s*(.*[^\s]+)\s*[^:)]*$` as an element list. -/
def typed_arg_start_re : List ReElem :=
  [.many pyWs, .many1 reDot, .many pyWs, .lit '(', .many pyWs,
   .many reDot, .many1 reNonWs, .many pyWs, .many reNonColonParen, .eol]

/-- `BeanbagDocstring.partial_typed_arg_end_re`: `\s*(.+?)\):$`. -/
def typed_arg_end_re : List ReElem :=
  [.many pyWs, .many1 reDot, .lit ')', .lit ':', .eol]

/-- `partial_typed_arg_start_re.match(line)` truthiness. -/
def typedArgStartMatch (line : String) : Bool :=
  reMatch typed_arg_start_re line.data

/-- `partial_typed_arg_end_re.match(line)` truthiness. -/
def typedArgEndMatch (line : String) : Bool :=
  reMatch typed_arg_end_re line.data

/-! ## Line buffer operations

`BeanbagDocstring` runs on Sphinx >= 5.1 (`_USES_LINES_DEQUE` is true there),
where `self._lines` is Napoleon's `Deque`: `get(i)` returns the `i`-th element
or a non-string sentinel when `i` is past the end, `popleft()` removes the
front element and raises `IndexError` on an empty deque, and `appendleft`
pushes a line onto the front.  The buffer is modelled as a `List String`; the
sentinel is modelled by `Option.none` in peek results. -/

/-- A Python exception surfaced by the embedded code. -/
inductive PyErr where
  | indexError
  | typeError
deriving DecidableEq, Repr

/-- `BeanbagDocstring.peek_lines(num_lines)`: the first `num_lines` entries of
the buffer, without consuming; entries past the end are the deque's sentinel
(`none`). -/
def peek_lines (buffer : List String) (num_lines : Nat) : List (Option String) :=
  (List.range num_lines).map (fun i => buffer.get? i)

/-- `deque.popleft()`: front element and rest, or `IndexError` when empty. -/
def popleft : List String → Except PyErr (String × List String)
  | [] => .error .indexError
  | l :: rest => .ok (l, rest)

/-- `BeanbagDocstring.consume_lines(num_lines)`: pop the front `num_lines`
lines one by one; a pop from an exhausted deque raises `IndexError`. -/
def consume_lines (buffer : List String) : Nat → Except PyErr (List String)
  | 0 => .ok buffer
  | n + 1 =>
    match popleft buffer with
    | .ok (_, rest) => consume_lines rest n
    | .error e => .error e

/-- `BeanbagDocstring.queue_line(line)`: `appendleft` onto the buffer. -/
def queue_line (buffer : List String) (line : String) : List String :=
  line :: buffer

/-! ## Multi-line field reconstruction (`BeanbagDocstring._consume_field`) -/

/-- `BeanbagDocstring.MAX_PARTIAL_TYPED_ARG_LINES`. -/
def MAX_TYPED_ARG_LINES : Nat := 3

/-- The joining loop of `_consume_field`: walk the scanned lines keeping the
previous line's stripped form; append a separating space between fragments
unless the next fragment starts with `.` or the previous one ends with `.`
(in which case the next fragment is appended in stripped form), and append
fragments whose stripped form is empty, or the very first fragment, as-is. -/
def joinFieldLines : List String → Option (List Char) → List Char
  | [], _ => []
  | line :: rest, prev =>
    let cs := line.data
    let norm := pyStrip cs
    let piece : List Char :=
      match prev with
      | none => cs
      | some p =>
        if norm.isEmpty then cs
        else if norm.head? = some '.' || p.getLast? = some '.' then norm
        else ' ' :: cs
    piece ++ joinFieldLines rest (some norm)

/-- `BeanbagDocstring.COMMA_RE.split` (`re.split(r',\s*', s)`): split at each
comma, greedily discarding the whitespace that follows it.  The `skip` flag is
true while inside the `\s*` run after a comma. -/
def commaSplitAux : List Char → Bool → List Char → List (List Char)
  | [], _, acc => [acc.reverse]
  | c :: rest, skip, acc =>
    if skip && pyWs c then commaSplitAux rest true acc
    else if c = ',' then acc.reverse :: commaSplitAux rest true []
    else commaSplitAux rest false (c :: acc)

/-- The comma-respacing step of `_consume_field`:
`if ',' in result: result = ', '.join(COMMA_RE.split(result))`. -/
def commaNormalize (r : List Char) : List Char :=
  if r.contains ',' then pyJoin [',', ' '] (commaSplitAux r false []) else r

/-- Reassembly of the scanned lines into one logical line (`_consume_field`,
lines 455-482): join the fragments, then normalize comma spacing. -/
def reassembleLines (lines : List String) : String :=
  String.mk (commaNormalize (joinFieldLines lines none))

/-- The scan loop `for i in range(1, MAX_PARTIAL_TYPED_ARG_LINES)` of
`_consume_field`: peek `i + 1` lines and inspect the line at index `i`.
Bail (`none`) when the loop range is exhausted, when the peeked entry is the
deque sentinel, or when the line matches the start pattern (a new typed arg);
on an end-pattern match return the index and the reassembled line.  The fuel
argument only makes the recursion structural; `scanTypedArg` supplies enough
of it that it never runs out before the `i < MAX` guard stops the loop. -/
def scanFromAux (buffer : List String) : Nat → Nat → Option (Nat × String)
  | 0, _ => none
  | fuel + 1, i =>
    if i < MAX_TYPED_ARG_LINES then
      match buffer.get? i with
      | none => none
      | some li =>
        if typedArgStartMatch li then none
        else if typedArgEndMatch li then
          some (i, reassembleLines (buffer.take (i + 1)))
        else scanFromAux buffer fuel (i + 1)
    else none

/-- The whole scan of `_consume_field`, starting at `i = 1`. -/
def scanTypedArg (buffer : List String) : Option (Nat × String) :=
  scanFromAux buffer MAX_TYPED_ARG_LINES 1

/-- The multi-line pre-processing step of `BeanbagDocstring._consume_field`
(the `parse_type=True` path), acting on the line buffer: peek the first line
and match it against the start pattern; on a match run the scan; if the scan
produced a (truthy) reassembled line, consume the scanned lines and queue the
reassembled line.  The resulting buffer is what the base single-line field
parser (`super()._consume_field`) then reads.  An empty buffer would make
`re.match` receive the deque sentinel, a `TypeError`. -/
def consume_field_pre (buffer : List String) : Except PyErr (List String) :=
  match buffer with
  | [] => .error .typeError
  | l0 :: _ =>
    if typedArgStartMatch l0 then
      match scanTypedArg buffer with
      | some (i, result) =>
        if result = "" then .ok buffer
        else
          match consume_lines buffer (i + 1) with
          | .ok b => .ok (queue_line b result)
          | .error e => .error e
      | none => .ok buffer
    else .ok buffer

/-! ## Type reference rewriting (`BeanbagDocstring.make_type_reference`) -/

/-- The `_convert_type_spec` fallback defined in `autodoc_utils.py`: look the
token up in the alias table; on a miss, `None` becomes an object reference and
anything else a class reference.  The alias table (`napoleon_type_aliases`) is
modelled as an association list with dictionary lookup. -/
def convert_type_spec (aliases : List (String × String)) (tp : String) : String :=
  match aliases.lookup tp with
  | some a => a
  | none => if tp = "None" then ":obj:`None`" else ":class:`" ++ tp ++ "`"

/-- The loop body of `make_type_reference` for one token of the primary
clause: the connector words `of` and `or` pass through verbatim, every other
token goes through `_convert_type_spec`. -/
def tokenRef (aliases : List (String × String)) (tp : String) : String :=
  if tp = "of" || tp = "or" then tp else convert_type_spec aliases tp

/-- `BeanbagDocstring.make_type_reference(type_str)`: empty input is returned
unchanged; otherwise split on commas, rewrite the space-separated tokens of
the first part through `tokenRef`, render every later part as ` *stripped*`,
and rejoin everything with commas. -/
def make_type_reference (aliases : List (String × String)) (type_str : String) :
    String :=
  if type_str = "" then type_str
  else
    let parts := pySplitStr ',' type_str
    let type_parts := (pySplitStr ' ' (parts.headD "")).map (tokenRef aliases)
    let new_parts :=
      [pyJoinStr " " type_parts] ++
        (if parts.length > 1 then
          parts.tail.map (fun p => " *" ++ pyStripStr p ++ "*")
        else [])
    pyJoinStr "," new_parts

/-! ## Admonition formatting (`_format_admonition_with_params`)

The helpers `_strip_empty`, `_dedent` (with `_get_min_indent`, `_get_indent`)
and `_indent` live in the Sphinx base class `GoogleDocstring`, outside this
repository; they are modelled from the spec here. -/

/-- Modelled from the spec: the base parser's `_strip_empty`, which strips
leading and trailing blank (empty-string) lines from a section body. -/
def strip_empty (lines : List String) : List String :=
  ((lines.dropWhile (fun l => l = "")).reverse.dropWhile (fun l => l = "")).reverse

/-- Modelled from the spec: the base parser's `_get_indent`, the number of
leading whitespace characters of a line. -/
def get_indent (line : String) : Nat :=
  (line.data.takeWhile pyWs).length

/-- Modelled from the spec: the base parser's `_get_min_indent`, the minimum
indentation over the non-empty lines (`0` when there are none). -/
def get_min_indent (lines : List String) : Nat :=
  match (lines.filter (fun l => l ≠ "")).map get_indent with
  | [] => 0
  | n :: ns => ns.foldl min n

/-- Modelled from the spec: the base parser's `_dedent`, removing the common
minimum indentation from every line. -/
def dedent (lines : List String) : List String :=
  lines.map (fun l => String.mk (l.data.drop (get_min_indent lines)))

/-- Modelled from the spec: the base parser's `_indent`, prepending `n` spaces
to every line. -/
def indentN (n : Nat) (lines : List String) : List String :=
  lines.map (fun l => String.mk (List.replicate n ' ' ++ l.data))

/-- The trailing-colon strip applied to the parameter line of
`_format_admonition_with_params`: drop exactly one trailing `:` if present. -/
def stripTrailingColon (s : String) : String :=
  if pyEndsWith [':'] s then String.mk s.data.dropLast else s

/-- `BeanbagDocstring._format_admonition_with_params(admonition, lines)`:
strip surrounding blank lines; with lines remaining, emit the directive line
carrying the stripped first line (minus one trailing colon) as parameter,
a blank line, the remaining lines dedented and re-indented by 3 spaces, and a
trailing blank line; with no lines remaining, emit the bare directive and a
blank line. -/
def format_admonition_with_params (admonition : String) (lines : List String) :
    List String :=
  match strip_empty lines with
  | [] => [".. " ++ admonition ++ "::", ""]
  | l0 :: rest =>
    [".. " ++ admonition ++ ":: " ++ stripTrailingColon (pyStripStr l0), ""] ++
      indentN 3 (dedent rest) ++ [""]

/-! ## The base parser's single-line typed-field extraction -/

/-- Modelled from the spec: the (out-of-scope) base single-line field parser's
extraction of the type expression from a field header of the shape
`name (type):` — the text between the first `(` and the trailing `):`,
stripped of surrounding whitespace. -/
def parsedTypeExpr (line : String) : Option String :=
  let cs := line.data
  if [')', ':'].isSuffixOf cs then
    let before := cs.takeWhile (fun c => c ≠ '(')
    if before.length = cs.length then none
    else some (String.mk (pyStrip ((cs.drop (before.length + 1)).dropLast.dropLast)))
  else none

end BeanbagDocutils

open BeanbagDocutils

/-! ## Helper lemmas -/

theorem consume_lines_ok (n : Nat) (buffer : List String) (h : n ≤ buffer.length) :
    consume_lines buffer n = .ok (buffer.drop n) := by
  induction n generalizing buffer with
  | zero => rfl
  | succ n ih =>
    match buffer with
    | [] => simp at h
    | l :: rest =>
      simp only [consume_lines, popleft]
      exact ih rest (Nat.le_of_succ_le_succ h)

theorem consume_lines_err (n : Nat) (buffer : List String)
    (h : buffer.length < n) : consume_lines buffer n = .error .indexError := by
  induction n generalizing buffer with
  | zero => simp at h
  | succ n ih =>
    match buffer with
    | [] => rfl
    | l :: rest =>
      simp only [consume_lines, popleft]
      exact ih rest (Nat.lt_of_succ_lt_succ h)

theorem typedArgStartMatch_data_ne (l : String)
    (h : typedArgStartMatch l = true) : l.data ≠ [] := by
  intro hd
  rw [typedArgStartMatch, hd] at h
  exact absurd h (by decide)

theorem commaSplitAux_ne_nil (cs : List Char) (skip : Bool) (acc : List Char) :
    commaSplitAux cs skip acc ≠ [] := by
  induction cs generalizing skip acc with
  | nil => simp [commaSplitAux]
  | cons c rest ih =>
    rw [commaSplitAux]
    split
    · exact ih true acc
    · split
      · simp
      · exact ih false (c :: acc)

theorem commaSplitAux_len2 (cs : List Char) (skip : Bool) (acc : List Char)
    (h : cs.contains ',' = true) : 2 ≤ (commaSplitAux cs skip acc).length := by
  induction cs generalizing skip acc with
  | nil => simp at h
  | cons c rest ih =>
    rw [commaSplitAux]
    by_cases hsw : (skip && pyWs c) = true
    · rw [if_pos hsw]
      have hc : c ≠ ',' := by
        intro hc
        subst hc
        exact absurd ((Bool.and_eq_true _ _).mp hsw).2 (by decide)
      have hrest : rest.contains ',' = true := by
        simp only [List.contains_cons] at h
        rcases Bool.or_eq_true_iff.mp h with h' | h'
        · exact absurd (eq_of_beq h').symm hc
        · exact h'
      exact ih true acc hrest
    · rw [if_neg hsw]
      by_cases hc : c = ','
      · rw [if_pos hc]
        have h1 := commaSplitAux_ne_nil rest true ([] : List Char)
        have h2 : 1 ≤ (commaSplitAux rest true []).length :=
          Nat.one_le_iff_ne_zero.mpr (fun h0 => h1 (List.length_eq_zero.mp h0))
        simp only [List.length_cons]
        omega
      · rw [if_neg hc]
        have hrest : rest.contains ',' = true := by
          simp only [List.contains_cons] at h
          rcases Bool.or_eq_true_iff.mp h with h' | h'
          · exact absurd (eq_of_beq h').symm hc
          · exact h'
        exact ih false (c :: acc) hrest

theorem pyJoin_comma_ne_nil (ps : List (List Char)) (h : 2 ≤ ps.length) :
    pyJoin [',', ' '] ps ≠ [] := by
  match ps with
  | [] => simp at h
  | [p] => simp at h
  | p :: q :: t =>
    have heq : pyJoin [',', ' '] (p :: q :: t) =
        p ++ [',', ' '] ++ pyJoin [',', ' '] (q :: t) := rfl
    rw [heq]
    intro habs
    have hlen := congrArg List.length habs
    simp [List.length_append] at hlen

theorem commaNormalize_ne_nil (cs : List Char) (h : cs ≠ []) :
    commaNormalize cs ≠ [] := by
  rw [commaNormalize]
  split
  · next hc => exact pyJoin_comma_ne_nil _ (commaSplitAux_len2 cs false [] hc)
  · exact h

theorem reassembleLines_ne_empty (l : String) (ls : List String)
    (h : l.data ≠ []) : reassembleLines (l :: ls) ≠ "" := by
  have hjoin : joinFieldLines (l :: ls) none =
      l.data ++ joinFieldLines ls (some (pyStrip l.data)) := rfl
  intro habs
  have hdata := congrArg String.data habs
  simp only [reassembleLines, hjoin] at hdata
  have hne : l.data ++ joinFieldLines ls (some (pyStrip l.data)) ≠ [] := by
    intro h0
    exact h (List.append_eq_nil.mp h0).1
  exact commaNormalize_ne_nil _ hne hdata

theorem scanFromAux_some (buffer : List String) (fuel i j : Nat) (r : String)
    (h : scanFromAux buffer fuel i = some (j, r)) :
    i ≤ j ∧ j < buffer.length ∧ r = reassembleLines (buffer.take (j + 1)) := by
  induction fuel generalizing i with
  | zero => simp [scanFromAux] at h
  | succ fuel ih =>
    rw [scanFromAux] at h
    by_cases hmax : i < MAX_TYPED_ARG_LINES
    · rw [if_pos hmax] at h
      split at h
      · exact absurd h (by simp)
      · rename_i li hget
        by_cases hs : typedArgStartMatch li = true
        · rw [if_pos hs] at h
          exact absurd h (by simp)
        · rw [if_neg hs] at h
          by_cases he : typedArgEndMatch li = true
          · rw [if_pos he] at h
            have hij := Option.some.inj h
            have hji : i = j := congrArg Prod.fst hij
            have hr : reassembleLines (buffer.take (i + 1)) = r :=
              congrArg Prod.snd hij
            subst hji
            refine ⟨Nat.le_refl _, ?_, hr.symm⟩
            by_contra hlen
            have hnone : buffer.get? i = none :=
              List.get?_eq_none.mpr (Nat.le_of_not_lt hlen)
            rw [hnone] at hget
            exact Option.noConfusion hget
          · rw [if_neg he] at h
            have hrec := ih (i + 1) h
            exact ⟨Nat.le_of_succ_le hrec.1, hrec.2.1, hrec.2.2⟩
    · rw [if_neg hmax] at h
      exact absurd h (by simp)

theorem pre_scan_some (l0 : String) (rest : List String) (i : Nat) (result : String)
    (hstart : typedArgStartMatch l0 = true)
    (hscan : scanTypedArg (l0 :: rest) = some (i, result)) :
    result ≠ "" ∧
      consume_field_pre (l0 :: rest) = .ok (result :: (l0 :: rest).drop (i + 1)) := by
  obtain ⟨hi1, hlen, hr⟩ :=
    scanFromAux_some (l0 :: rest) MAX_TYPED_ARG_LINES 1 i result hscan
  have htake : (l0 :: rest).take (i + 1) = l0 :: rest.take i := rfl
  have hres : result ≠ "" := by
    rw [hr, htake]
    exact reassembleLines_ne_empty l0 _ (typedArgStartMatch_data_ne l0 hstart)
  refine ⟨hres, ?_⟩
  rw [consume_field_pre, if_pos hstart]
  simp only [hscan]
  rw [if_neg hres, consume_lines_ok (i + 1) (l0 :: rest) hlen]
  rfl


/-! ## Claim theorems -/

/-- C1: for the field header split across exactly the two lines
`arg2 (foo.bar.abc` and `.def.ghi, optional):`, the reconstruction consumes
both lines and queues the single reassembled line
`arg2 (foo.bar.abc.def.ghi, optional):` (the dot-continuation suppresses the
separating space and comma spacing is normalized to `, `), and the single-line
parse of that header reads off exactly `foo.bar.abc.def.ghi, optional` as the
type expression. -/
theorem c1_two_line_reassembly :
    consume_field_pre ["arg2 (foo.bar.abc", ".def.ghi, optional):"] =
      .ok ["arg2 (foo.bar.abc.def.ghi, optional):"] ∧
    parsedTypeExpr "arg2 (foo.bar.abc.def.ghi, optional):" =
      some "foo.bar.abc.def.ghi, optional" :=
  ⟨rfl, rfl⟩

/-- C2 (counterexample): the loop `for i in range(1, 3)` inspects only the
continuation lines at indices 1 and 2, never index 3.  In this buffer the
close pattern first appears on the 3rd continuation line (`v):`), every
earlier continuation line matches neither pattern and no sentinel is hit, yet
the field is not reassembled: the buffer is left unchanged. -/
theorem c2_scan_bound_counterexample :
    typedArgStartMatch "x (y" = true ∧
    typedArgStartMatch "z" = false ∧ typedArgEndMatch "z" = false ∧
    typedArgStartMatch "w" = false ∧ typedArgEndMatch "w" = false ∧
    typedArgStartMatch "v):" = false ∧ typedArgEndMatch "v):" = true ∧
    consume_field_pre ["x (y", "z", "w", "v):"] =
      .ok ["x (y", "z", "w", "v):"] :=
  ⟨by decide, by decide, by decide, by decide, by decide, by decide, by decide,
   rfl⟩

/-- C2 (amended): the scan inspects continuation lines at index `i` for `i`
from 1 up to `MAX_PARTIAL_TYPED_ARG_LINES - 1 = 2` inclusive (`range(1, 3)`);
if the close pattern first appears on the `i`-th continuation line for some
`i ≤ 2`, with no earlier continuation line matching a new start pattern and no
sentinel encountered, the scanned lines are consumed and the single
reassembled line is queued. -/
theorem c2_scan_bound (l0 : String) (rest : List String)
    (hstart : typedArgStartMatch l0 = true) :
    (∀ l1, (l0 :: rest).get? 1 = some l1 →
        typedArgStartMatch l1 = false → typedArgEndMatch l1 = true →
        consume_field_pre (l0 :: rest) =
          .ok (reassembleLines ((l0 :: rest).take 2) :: (l0 :: rest).drop 2)) ∧
    (∀ l1 l2, (l0 :: rest).get? 1 = some l1 →
        typedArgStartMatch l1 = false → typedArgEndMatch l1 = false →
        (l0 :: rest).get? 2 = some l2 →
        typedArgStartMatch l2 = false → typedArgEndMatch l2 = true →
        consume_field_pre (l0 :: rest) =
          .ok (reassembleLines ((l0 :: rest).take 3) :: (l0 :: rest).drop 3)) := by
  constructor
  · intro l1 h1 hs1 he1
    cases rest with
    | nil => exact absurd h1 (by simp)
    | cons a rest2 =>
      have ha : a = l1 := by simpa using h1
      subst ha
      have hscan : scanTypedArg (l0 :: a :: rest2) =
          some (1, reassembleLines ((l0 :: a :: rest2).take 2)) := by
        show (if typedArgStartMatch a then none
              else if typedArgEndMatch a then
                some (1, reassembleLines ((l0 :: a :: rest2).take 2))
              else scanFromAux (l0 :: a :: rest2) 2 2) =
            some (1, reassembleLines ((l0 :: a :: rest2).take 2))
        rw [if_neg (by simp [hs1]), if_pos he1]
      exact (pre_scan_some l0 (a :: rest2) 1 _ hstart hscan).2
  · intro l1 l2 h1 hs1 he1 h2 hs2 he2
    cases rest with
    | nil => exact absurd h1 (by simp)
    | cons a rest2 =>
      have ha : a = l1 := by simpa using h1
      subst ha
      cases rest2 with
      | nil => exact absurd h2 (by simp)
      | cons b rest3 =>
        have hb : b = l2 := by simpa using h2
        subst hb
        have hscan : scanTypedArg (l0 :: a :: b :: rest3) =
            some (2, reassembleLines ((l0 :: a :: b :: rest3).take 3)) := by
          show (if typedArgStartMatch a then none
                else if typedArgEndMatch a then
                  some (1, reassembleLines ((l0 :: a :: b :: rest3).take 2))
                else scanFromAux (l0 :: a :: b :: rest3) 2 2) =
              some (2, reassembleLines ((l0 :: a :: b :: rest3).take 3))
          rw [if_neg (by simp [hs1]), if_neg (by simp [he1])]
          show (if typedArgStartMatch b then none
                else if typedArgEndMatch b then
                  some (2, reassembleLines ((l0 :: a :: b :: rest3).take 3))
                else scanFromAux (l0 :: a :: b :: rest3) 1 3) =
              some (2, reassembleLines ((l0 :: a :: b :: rest3).take 3))
          rw [if_neg (by simp [hs2]), if_pos he2]
        exact (pre_scan_some l0 (a :: b :: rest3) 2 _ hstart hscan).2

/-- Witness for C2 (amended): close pattern on the 2nd continuation line. -/
theorem c2_scan_bound_witness :
    consume_field_pre ["val (one", "two", "three):"] =
      .ok ["val (one two three):"] := by
  have h := (c2_scan_bound "val (one" ["two", "three):"] (by decide)).2
    "two" "three):" rfl (by decide) (by decide) rfl (by decide) (by decide)
  exact h

/-- C3: when the first line matches the start pattern but the scan gives up
(no continuation line within the bound matches the close pattern), the
multi-line step consumes nothing, queues nothing and raises nothing: the
buffer handed to the base single-line field parser is exactly the original
buffer. -/
theorem c3_bound_exhaustion (l0 : String) (rest : List String)
    (hstart : typedArgStartMatch l0 = true)
    (hscan : scanTypedArg (l0 :: rest) = none) :
    consume_field_pre (l0 :: rest) = .ok (l0 :: rest) := by
  rw [consume_field_pre, if_pos hstart]
  simp only [hscan]

/-- Witness for C3: a type expression wrapping across more lines than the
bound leaves the buffer untouched. -/
theorem c3_bound_exhaustion_witness :
    typedArgStartMatch "arg (module.a" = true ∧
    consume_field_pre ["arg (module.a", "module.b", "module.c", "module.d):"] =
      .ok ["arg (module.a", "module.b", "module.c", "module.d):"] :=
  ⟨by decide,
   c3_bound_exhaustion "arg (module.a" ["module.b", "module.c", "module.d):"]
     (by decide) rfl⟩

/-- C4 (counterexample): `name (type):` is a field header whose type
annotation is closed by a trailing `):` on the same line, yet the start
pattern `\s*(.+?)\s*\(\s*(.*[^\s]+)\s*[^:)]*$` does match it (the group
`(.*[^\s]+)` can absorb the trailing `):`, leaving `[^:)]*$` to match the
empty suffix), contradicting the claim that it does not match. -/
theorem c4_closed_header_counterexample :
    pyEndsWith [')', ':'] "name (type):" = true ∧
    typedArgStartMatch "name (type):" = true :=
  ⟨by decide, by decide⟩

/-- C4 (amended): the start pattern does match a same-line-closed header
`name (type):`, so the lookahead scan does run for it; but since the
following lines match no close pattern the scan gives up and the field still
falls through to normal single-line field parsing with the buffer unchanged. -/
theorem c4_closed_header_behavior :
    typedArgStartMatch "arg (dict):" = true ∧
    consume_field_pre ["arg (dict):", "    The description.", ""] =
      .ok ["arg (dict):", "    The description.", ""] :=
  ⟨by decide, rfl⟩

/-- C5: for every alias table the tokens `of` and `or` of the primary clause
pass through `make_type_reference`'s token rewriting verbatim — they are
neither resolved through the alias table nor wrapped in reference markup —
and rewriting `list of int` under
`{"list": "LIST_REF", "int": "INT_REF"}` yields `LIST_REF of INT_REF`. -/
theorem c5_connector_words (aliases : List (String × String)) :
    tokenRef aliases "of" = "of" ∧ tokenRef aliases "or" = "or" ∧
    make_type_reference [("list", "LIST_REF"), ("int", "INT_REF")]
      "list of int" = "LIST_REF of INT_REF" :=
  ⟨rfl, rfl, rfl⟩

/-- C6: every comma-separated suffix clause after the primary clause is
stripped of surrounding whitespace and rendered as emphasized text prefixed
by one space, and the clauses are rejoined with commas; in particular
`dict, optional` with an empty alias table becomes
`:class:`dict`, *optional*`. -/
theorem c6_suffix_clauses :
    make_type_reference [] "dict, optional" = ":class:`dict`, *optional*" ∧
    ∀ (aliases : List (String × String)) (s : String), s ≠ "" →
      make_type_reference aliases s =
        pyJoinStr ","
          (pyJoinStr " " ((pySplitStr ' ' ((pySplitStr ',' s).headD "")).map
              (tokenRef aliases)) ::
            (pySplitStr ',' s).tail.map (fun p => " *" ++ pyStripStr p ++ "*")) := by
  refine ⟨rfl, ?_⟩
  intro aliases s hs
  simp only [make_type_reference, if_neg hs]
  by_cases hlen : (pySplitStr ',' s).length > 1
  · rw [if_pos hlen, List.singleton_append]
  · rw [if_neg hlen]
    have hle : (pySplitStr ',' s).length ≤ 1 := Nat.not_lt.mp hlen
    have htail : (pySplitStr ',' s).tail = [] := by
      cases hsp : pySplitStr ',' s with
      | nil => rfl
      | cons a t =>
        cases t with
        | nil => rfl
        | cons b t2 => rw [hsp] at hle; simp at hle
    rw [htail]
    simp

/-- Witness for C6 at a concrete multi-clause input. -/
theorem c6_suffix_clauses_witness :
    make_type_reference [] "str or None, optional" =
      pyJoinStr ","
        (pyJoinStr " "
            ((pySplitStr ' ' ((pySplitStr ',' "str or None, optional").headD "")).map
              (tokenRef [])) ::
          (pySplitStr ',' "str or None, optional").tail.map
            (fun p => " *" ++ pyStripStr p ++ "*")) :=
  c6_suffix_clauses.2 [] "str or None, optional" (by decide)

/-- C7: the type-reference rewriter is a pure function of the alias table and
the input string — two invocations on equal inputs produce identical output
strings (the embedding is stateless because the source only reads, never
writes, the alias table and parser state). -/
theorem c7_deterministic (aliases : List (String × String)) (s t : String)
    (h : s = t) :
    make_type_reference aliases s = make_type_reference aliases t :=
  congrArg (make_type_reference aliases) h

/-- Witness for C7. -/
theorem c7_deterministic_witness :
    make_type_reference [] "dict" = make_type_reference [] "dict" :=
  c7_deterministic [] "dict" "dict" rfl

/-- C8: after stripping leading/trailing blank lines, a non-empty admonition
body becomes the labeled directive line carrying the stripped first line
(minus one trailing colon) as parameter, a blank line, the remaining lines
dedented and re-indented by exactly 3 spaces, and a trailing blank line; an
empty body becomes the bare directive.  Concretely: a sole line `2.0` gives
parameter `2.0` with no indented content, and `2.0:` followed by a
description line gives parameter `2.0` with the description indented by
exactly 3 spaces. -/
theorem c8_admonition_format (admonition : String) (lines : List String) :
    (strip_empty lines = [] →
      format_admonition_with_params admonition lines =
        [".. " ++ admonition ++ "::", ""]) ∧
    (∀ l0 rest, strip_empty lines = l0 :: rest →
      format_admonition_with_params admonition lines =
        [".. " ++ admonition ++ ":: " ++ stripTrailingColon (pyStripStr l0),
          ""] ++ indentN 3 (dedent rest) ++ [""]) ∧
    format_admonition_with_params "versionadded" ["2.0"] =
      [".. versionadded:: 2.0", "", ""] ∧
    format_admonition_with_params "deprecated" ["2.0:", "    A description."] =
      [".. deprecated:: 2.0", "", "   A description.", ""] ∧
    format_admonition_with_params "versionchanged" ["", ""] =
      [".. versionchanged::", ""] := by
  refine ⟨?_, ?_, rfl, rfl, rfl⟩
  · intro h
    rw [format_admonition_with_params, h]
  · intro l0 rest h
    rw [format_admonition_with_params, h]

/-- Witness for C8. -/
theorem c8_admonition_format_witness :
    format_admonition_with_params "versionadded" ["", "2.0"] =
      [".. " ++ "versionadded" ++ ":: " ++ stripTrailingColon (pyStripStr "2.0"),
        ""] ++ indentN 3 (dedent ([] : List String)) ++ [""] :=
  (c8_admonition_format "versionadded" ["", "2.0"]).2.1 "2.0" [] rfl

/-- C9 (counterexample): consuming past the available lines is not treated as
"no more content" — `consume_lines` on an exhausted buffer performs
`deque.popleft()` on an empty deque, which raises `IndexError`. -/
theorem c9_buffer_ops_counterexample :
    consume_lines ([] : List String) 1 = .error .indexError :=
  rfl

/-- C9 (amended): `peek_lines(n)` never raises — it always returns exactly
`n` entries, padding past the end of the buffer with the end-of-input
sentinel — while `consume_lines(n)` succeeds exactly when `n` lines are
available and raises `IndexError` (a precondition violation, per the buffer
contract) when consuming past the available lines. -/
theorem c9_buffer_ops (buffer : List String) (n i : Nat) :
    (peek_lines buffer n).length = n ∧
    (i < n → buffer.length ≤ i → (peek_lines buffer n).get? i = some none) ∧
    consume_lines buffer n =
      (if n ≤ buffer.length then .ok (buffer.drop n)
       else .error .indexError) := by
  refine ⟨?_, ?_, ?_⟩
  · simp [peek_lines]
  · intro hin hlen
    rw [peek_lines, List.get?_map, List.get?_range hin, Option.map_some',
      List.get?_eq_none.mpr hlen]
  · split
    · exact consume_lines_ok n buffer ‹_›
    · exact consume_lines_err n buffer (Nat.lt_of_not_le ‹_›)

/-- Witness for C9 (amended): peeking two lines from an empty buffer yields
sentinels without raising. -/
theorem c9_buffer_ops_witness :
    (peek_lines ([] : List String) 2).get? 0 = some none :=
  (c9_buffer_ops [] 2 0).2.1 (by decide) (by decide)

/-- C10: whenever the scan finds a close-pattern line, the reassembled string
is non-empty (the header matched the start pattern, so it is a non-empty
first fragment of the join), hence the `if result:` guard never rejects a
successful scan: the scanned lines are consumed and the line queued. -/
theorem c10_reassembled_nonempty (l0 : String) (rest : List String) (i : Nat)
    (result : String) (hstart : typedArgStartMatch l0 = true)
    (hscan : scanTypedArg (l0 :: rest) = some (i, result)) :
    result ≠ "" ∧
      consume_field_pre (l0 :: rest) =
        .ok (result :: (l0 :: rest).drop (i + 1)) :=
  pre_scan_some l0 rest i result hstart hscan

/-- Witness for C10. -/
theorem c10_reassembled_nonempty_witness :
    ("arg (foo bar):" : String) ≠ "" ∧
      consume_field_pre ["arg (foo", "bar):"] =
        .ok ("arg (foo bar):" :: (["arg (foo", "bar):"] : List String).drop 2) :=
  c10_reassembled_nonempty "arg (foo" ["bar):"] 1 "arg (foo bar):"
    (by decide) rfl
